import Mathlib

/-!
Verification of the meteo backend (src/backend/main.go, the current version
serving /stations and /station).

Conventions of the embedding:

* Go `float64` values are modelled by exact fractions (`Frac` below).  The
  program only ever forms float values by literals, casts from integers,
  field arithmetic (+, -, *, /) and calls into `math.Sin`, `math.Cos`,
  `math.Sqrt`, `math.Atan2` and `math.Pi`; the transcendental primitives and
  the constant pi are kept abstract as a parameter record `MathOps`, while
  the surrounding arithmetic is exact.  `math.Round` is modelled by its
  documented semantics (round half away from zero).
* Go strings are handled at rune level (`List Char`); the GHCN feeds are
  ASCII, where Go's byte slicing `line[a:b]` coincides with rune slicing.
* Go maps are modelled as association lists with unique keys; map update
  replaces the binding of the key in place, map iteration feeds a fold.
  Where the Go code iterates over a map in unspecified order and then sorts
  the collected rows by a key that is unique per row (year, or
  year/season), the final list is the same for every iteration order, so
  the embedding builds the rows from the deduplicated key list directly.
* Network fetches are modelled by passing the fetched payload (or its
  failure) as an argument; `time.Now`/`time.Since` by an explicit integer
  timestamp in nanoseconds.
-/

/-- Exact fraction, modelling a Go `float64` value.  `den` is kept positive
by all constructions below. -/
structure Frac where
  num : Int
  den : Nat
deriving DecidableEq

namespace Frac

def ofInt (n : Int) : Frac := ⟨n, 1⟩

instance (n : Nat) : OfNat Frac n := ⟨⟨(n : Int), 1⟩⟩

def add (a b : Frac) : Frac := ⟨a.num * b.den + b.num * a.den, a.den * b.den⟩

def neg (a : Frac) : Frac := ⟨-a.num, a.den⟩

def sub (a b : Frac) : Frac := a.add b.neg

def mul (a b : Frac) : Frac := ⟨a.num * b.num, a.den * b.den⟩

/-- Reciprocal; keeps the denominator nonnegative.  (Go division by zero
yields an infinity; no modelled code path divides by zero.) -/
def recip (a : Frac) : Frac :=
  if 0 < a.num then ⟨(a.den : Int), a.num.toNat⟩
  else if a.num < 0 then ⟨-(a.den : Int), a.num.natAbs⟩
  else ⟨0, 1⟩

def div (a b : Frac) : Frac := a.mul b.recip

instance : Add Frac := ⟨add⟩
instance : Sub Frac := ⟨sub⟩
instance : Mul Frac := ⟨mul⟩
instance : Div Frac := ⟨div⟩
instance : Neg Frac := ⟨neg⟩

def le (a b : Frac) : Prop := a.num * b.den ≤ b.num * a.den

def lt (a b : Frac) : Prop := a.num * b.den < b.num * a.den

instance : LE Frac := ⟨le⟩
instance : LT Frac := ⟨lt⟩

instance (a b : Frac) : Decidable (a ≤ b) := Int.decLe _ _
instance (a b : Frac) : Decidable (a < b) := Int.decLt _ _

def floor (a : Frac) : Int := Int.fdiv a.num a.den

/-- Go `math.Round`: round to the nearest integer, half away from zero. -/
def goRound (a : Frac) : Int :=
  if 0 ≤ a.num then (a.add ⟨1, 2⟩).floor
  else -((a.neg.add ⟨1, 2⟩).floor)

end Frac

/-- `math.Round(q*100)/100`, the two-decimal rounding used by both
aggregation functions. -/
def round2 (q : Frac) : Frac := (Frac.ofInt (Frac.goRound (q * 100))) / 100

/-! ### String helpers (Go `strings` / `strconv`) -/

/-- Whitespace as trimmed by Go `strings.TrimSpace` (the ASCII part, which
is all that occurs in the GHCN feeds). -/
def isSpaceChar (c : Char) : Bool :=
  c = ' ' || c = '\t' || c = '\n' || c = '\r' || c = '\x0b' || c = '\x0c'

/-- Go `strings.TrimSpace`. -/
def goTrim (cs : List Char) : List Char :=
  ((cs.dropWhile isSpaceChar).reverse.dropWhile isSpaceChar).reverse

/-- Go slicing `line[a:b]`. -/
def goSlice (cs : List Char) (a b : Nat) : List Char :=
  (cs.drop a).take (b - a)

def digitVal (c : Char) : Nat := c.toNat - 48

def isDigitChar (c : Char) : Bool := 48 ≤ c.toNat && c.toNat ≤ 57

def digitsToNat (cs : List Char) : Nat :=
  cs.foldl (fun acc c => acc * 10 + digitVal c) 0

/-- Go `strconv.Atoi`: optional sign, then one or more digits, nothing
else.  (Overflow of the machine `int` is not modelled; the program only
parses 4-digit years and small temperature values.) -/
def goAtoi (s : String) : Option Int :=
  let parseDigits : List Char → Option Int := fun cs =>
    if cs ≠ [] && cs.all isDigitChar then some (digitsToNat cs : Int) else none
  match s.data with
  | '-' :: rest => (parseDigits rest).map (fun n => -n)
  | '+' :: rest => parseDigits rest
  | cs => parseDigits cs

/-- Go `strconv.ParseFloat` on decimal notation:
`[sign] digits [. digits] [e|E [sign] digits]`, with at least one mantissa
digit.  (The hexadecimal, `Inf`/`NaN` and underscore forms accepted by Go
do not occur in the GHCN feeds; rounding to binary float64 is replaced by
the exact value.) -/
def goParseFloat (s : String) : Option Frac :=
  let split : List Char → List Char × List Char := fun cs =>
    (cs.takeWhile isDigitChar, cs.dropWhile isDigitChar)
  let applyExp : Frac → List Char → Option Frac := fun f cs =>
    match cs with
    | [] => some f
    | e :: rest =>
      if e = 'e' || e = 'E' then
        let (sign, ds) :=
          match rest with
          | '-' :: r => (true, r)
          | '+' :: r => (false, r)
          | r => (false, r)
        if ds ≠ [] && ds.all isDigitChar then
          let p := digitsToNat ds
          if sign then some ⟨f.num, f.den * 10 ^ p⟩
          else some ⟨f.num * (10 ^ p : Nat), f.den⟩
        else none
      else none
  let mantissa : List Char → Bool → Option Frac := fun cs negative =>
    let (intPart, rest1) := split cs
    let (fracPart, rest2) :=
      match rest1 with
      | '.' :: r => split r
      | _ => (([] : List Char), rest1)
    if intPart = [] && fracPart = [] then none
    else
      let n : Int := (digitsToNat (intPart ++ fracPart) : Nat)
      applyExp ⟨if negative then -n else n, 10 ^ fracPart.length⟩
        (if rest1 ≠ [] && rest1.head? = some '.' then rest2 else rest1)
  match s.data with
  | '-' :: rest => mantissa rest true
  | '+' :: rest => mantissa rest false
  | cs => mantissa cs false

/-! ### Dates (Go `time.Parse` with layout `"20060102"`) -/

structure Date where
  year : Nat
  month : Nat
  day : Nat
deriving DecidableEq

/-- Go's leap-year rule (`time.isLeap`). -/
def isLeapYear (y : Nat) : Bool :=
  y % 4 = 0 && (y % 100 ≠ 0 || y % 400 = 0)

def daysInMonth (y m : Nat) : Nat :=
  if m = 2 then (if isLeapYear y then 29 else 28)
  else if m = 4 || m = 6 || m = 9 || m = 11 then 30
  else 31

/-- Go `time.Parse("20060102", s)`: exactly eight digits, month and
day-of-month validated. -/
def parseDate (s : String) : Option Date :=
  match s.data with
  | [y1, y2, y3, y4, m1, m2, d1, d2] =>
    if [y1, y2, y3, y4, m1, m2, d1, d2].all isDigitChar then
      let y := digitsToNat [y1, y2, y3, y4]
      let m := digitsToNat [m1, m2]
      let d := digitsToNat [d1, d2]
      if 1 ≤ m && m ≤ 12 && 1 ≤ d && d ≤ daysInMonth y m then
        some ⟨y, m, d⟩
      else none
    else none
  | _ => none

/-! ### Observation ingestion (`loadStationData`) -/

structure RawStationData where
  Date : Date
  ElementType : String
  Value : Int
deriving DecidableEq

/-- One iteration of the row loop of `loadStationData` (main.go 759-790):
`none` models `continue`. -/
def parseObsRow (line : List String) : Option RawStationData :=
  match line with
  | id0 :: dateStr :: element :: valueStr :: _ =>
    let _ := id0
    if element ≠ "TMIN" && element ≠ "TMAX" then none
    else
      match parseDate dateStr with
      | none => none
      | some date =>
        match goAtoi valueStr with
        | none => none
        | some val => if val = -9999 then none else some ⟨date, element, val⟩
  | _ => none

/-- The parsing part of `loadStationData` (main.go 753-791), applied to the
already-decoded CSV records: the first record (header) is discarded
unconditionally, every further record passes through the row filter.
The fetch itself is modelled at the call site (`getStationData`). -/
def loadStationData (rows : List (List String)) : List RawStationData :=
  match rows with
  | [] => []
  | _header :: rest => rest.filterMap parseObsRow

/-! ### Aggregation engine (`calculateAnnualAvg`, `calculateSeasonalAvg`)

Both Go functions accumulate sums/counts in a map and then sort the
collected rows.  The grouping key is unique per emitted row, so the map
iteration order does not influence the sorted output; the embedding
therefore computes each key's aggregate directly from the input list and
sorts the deduplicated key list. -/

structure AnnualStationData where
  Year : Nat
  TMin : Option Frac
  TMax : Option Frac
deriving DecidableEq

/-- Sum of the values of the observations of one element kind in one year
(the `sumMin`/`sumMax` accumulator of `calculateAnnualAvg`). -/
def annualSum (rawData : List RawStationData) (y : Nat) (kind : String) : Int :=
  ((rawData.filter (fun d => d.Date.year == y && d.ElementType == kind)).map
    (fun d => d.Value)).sum

/-- The matching `countMin`/`countMax` accumulator. -/
def annualCount (rawData : List RawStationData) (y : Nat) (kind : String) : Nat :=
  (rawData.filter (fun d => d.Date.year == y && d.ElementType == kind)).length

/-- The row built for one year (main.go 817-829). -/
def mkAnnual (rawData : List RawStationData) (y : Nat) : AnnualStationData :=
  { Year := y
  , TMin :=
      if 0 < annualCount rawData y "TMIN" then
        some (round2 ((Frac.ofInt (annualSum rawData y "TMIN") /
          Frac.ofInt (annualCount rawData y "TMIN")) / 10))
      else none
  , TMax :=
      if 0 < annualCount rawData y "TMAX" then
        some (round2 ((Frac.ofInt (annualSum rawData y "TMAX") /
          Frac.ofInt (annualCount rawData y "TMAX")) / 10))
      else none }

/-- The distinct years occurring in the input (the key set of the `stats`
map of `calculateAnnualAvg`). -/
def annualYears (rawData : List RawStationData) : List Nat :=
  (rawData.map (fun d => d.Date.year)).dedup

/-- `calculateAnnualAvg` (main.go 795-833).  The Go code sorts the rows
with `slices.SortFunc` by the year, which is unique per row, so every
sorting algorithm yields the same list; the embedding uses a structurally
recursive insertion sort. -/
def calculateAnnualAvg (rawData : List RawStationData) : List AnnualStationData :=
  ((annualYears rawData).insertionSort (· ≤ ·)).map (mkAnnual rawData)

/-- Season of a month, following the `switch` of `calculateSeasonalAvg`
(main.go 848-860).  A Go `time.Time` always has a month in 1..12, so the
default branch (season left as the empty string) is unreachable in the
program. -/
def seasonOf (month : Nat) : String :=
  if month = 3 || month = 4 || month = 5 then "Spring"
  else if month = 6 || month = 7 || month = 8 then "Summer"
  else if month = 9 || month = 10 || month = 11 then "Autumn"
  else if month = 1 || month = 2 || month = 12 then "Winter"
  else ""

/-- The priority ranking `order` of the seasonal sort comparator
(main.go 899); a missing key reads as 0 in Go. -/
def seasonRank (s : String) : Int :=
  if s = "Winter" then 1
  else if s = "Spring" then 2
  else if s = "Summer" then 3
  else if s = "Autumn" then 4
  else 0

structure SeasonalStationData where
  Year : Nat
  Season : String
  TMin : Option Frac
  TMax : Option Frac
deriving DecidableEq

def seasonalSum (rawData : List RawStationData) (y : Nat) (season kind : String) : Int :=
  ((rawData.filter (fun d =>
    d.Date.year == y && seasonOf d.Date.month == season && d.ElementType == kind)).map
    (fun d => d.Value)).sum

def seasonalCount (rawData : List RawStationData) (y : Nat) (season kind : String) : Nat :=
  (rawData.filter (fun d =>
    d.Date.year == y && seasonOf d.Date.month == season && d.ElementType == kind)).length

/-- The distinct (year, season) grouping keys.  The Go code encodes the key
as the string `"%d-%s"` and decodes it back by splitting at `"-"`; for the
nonnegative years produced by date parsing this round-trips exactly, so the
embedding keeps the pair. -/
def seasonalKeys (rawData : List RawStationData) : List (Nat × String) :=
  (rawData.map (fun d => (d.Date.year, seasonOf d.Date.month))).dedup

/-- The row built for one (year, season) key (main.go 877-893). -/
def mkSeasonal (rawData : List RawStationData) (k : Nat × String) : SeasonalStationData :=
  { Year := k.1
  , Season := k.2
  , TMin :=
      if 0 < seasonalCount rawData k.1 k.2 "TMIN" then
        some (round2 ((Frac.ofInt (seasonalSum rawData k.1 k.2 "TMIN") /
          Frac.ofInt (seasonalCount rawData k.1 k.2 "TMIN")) / 10))
      else none
  , TMax :=
      if 0 < seasonalCount rawData k.1 k.2 "TMAX" then
        some (round2 ((Frac.ofInt (seasonalSum rawData k.1 k.2 "TMAX") /
          Frac.ofInt (seasonalCount rawData k.1 k.2 "TMAX")) / 10))
      else none }

/-- The seasonal sort order (main.go 895-901): by year, then by the
`seasonRank` priority. -/
def seasonalKeyLe (a b : Nat × String) : Prop :=
  a.1 < b.1 ∨ (a.1 = b.1 ∧ seasonRank a.2 ≤ seasonRank b.2)

instance (a b : Nat × String) : Decidable (seasonalKeyLe a b) := by
  unfold seasonalKeyLe
  exact inferInstance

/-- `calculateSeasonalAvg` (main.go 836-903).  As for the annual case, the
(year, season) sort key is unique per row, so every sorting algorithm
yields the same list. -/
def calculateSeasonalAvg (rawData : List RawStationData) : List SeasonalStationData :=
  ((seasonalKeys rawData).insertionSort seasonalKeyLe).map (mkSeasonal rawData)

/-! ### Station registry (`initStations`, `loadInventory`) -/

structure Station where
  ID : String
  Name : String
  Latitude : Option Frac
  Longitude : Option Frac
  Distance : Frac
deriving DecidableEq

structure StationInventory where
  FirstYear : Int
  LastYear : Int
deriving DecidableEq

/-- Go map lookup `m[k]` on an association list with unique keys. -/
def lookupAssoc {β : Type} : List (String × β) → String → Option β
  | [], _ => none
  | (k, v) :: rest, id => if k = id then some v else lookupAssoc rest id

/-- Replacement of the binding of a present key (Go's in-place update of a
map value). -/
def updateAssoc {β : Type} : List (String × β) → String → β → List (String × β)
  | [], _, _ => []
  | (k, v) :: rest, id, nv =>
    if k = id then (k, nv) :: rest else (k, v) :: updateAssoc rest id nv

/-- Go map assignment `m[k] = v`: replace if present, add otherwise. -/
def upsertAssoc {β : Type} (m : List (String × β)) (k : String) (v : β) :
    List (String × β) :=
  match lookupAssoc m k with
  | some _ => updateAssoc m k v
  | none => m ++ [(k, v)]

abbrev InventoryMap := List (String × StationInventory)

/-- One line of `ghcnd-stations.txt` as read by `initStations`
(main.go 494-517): lines shorter than 71 characters are skipped, fixed
columns are cut out and trimmed, malformed coordinates parse to zero with
the error discarded, and the record always stores both coordinate
pointers. -/
def parseStationLine (line : String) : Option Station :=
  let cs := line.data
  if cs.length < 71 then none
  else
    let id := (goTrim (goSlice cs 0 11)).asString
    let latStr := (goTrim (goSlice cs 12 20)).asString
    let longStr := (goTrim (goSlice cs 21 30)).asString
    let name := (goTrim (goSlice cs 38 71)).asString
    let lat := (goParseFloat latStr).getD 0
    let long := (goParseFloat longStr).getD 0
    some { ID := id, Name := name, Latitude := some lat, Longitude := some long,
           Distance := 0 }

/-- `initStations` (main.go 480-519) as a transformation of the global
`allStations`: the parsed stations are appended to whatever the list
already holds. -/
def initStations (lines : List String) (allStations : List Station) : List Station :=
  allStations ++ lines.filterMap parseStationLine

/-- One line of `ghcnd-inventory.txt` as read by `loadInventory`
(main.go 450-463): short lines and non-temperature elements are skipped,
years parse to zero on error. -/
def parseInventoryLine (line : String) : Option (String × Int × Int) :=
  let cs := line.data
  if cs.length < 45 then none
  else
    let element := (goTrim (goSlice cs 31 35)).asString
    if element ≠ "TMAX" && element ≠ "TMIN" then none
    else
      let id := (goTrim (goSlice cs 0 11)).asString
      let firstYear := (goAtoi (goTrim (goSlice cs 36 40)).asString).getD 0
      let lastYear := (goAtoi (goTrim (goSlice cs 41 45)).asString).getD 0
      some (id, firstYear, lastYear)

/-- The merge of one inventory line into the map (main.go 465-474):
an existing entry is widened to the span minimum/maximum, a new id is
inserted. -/
def invStep (m : InventoryMap) (e : String × Int × Int) : InventoryMap :=
  match lookupAssoc m e.1 with
  | some i =>
    updateAssoc m e.1
      { FirstYear := if e.2.1 < i.FirstYear then e.2.1 else i.FirstYear
      , LastYear := if i.LastYear < e.2.2 then e.2.2 else i.LastYear }
  | none => m ++ [(e.1, ⟨e.2.1, e.2.2⟩)]

/-- `loadInventory` (main.go 437-477) as a transformation of the global
`inventoryMap`. -/
def loadInventory (lines : List String) (m : InventoryMap) : InventoryMap :=
  (lines.filterMap parseInventoryLine).foldl invStep m

/-! ### Geospatial search (`findStations`) -/

/-- The primitives `findStations` takes from Go's `math` package, kept
abstract: the embedding states the arithmetic structure of the distance
computation, not the analytic values of the transcendental functions. -/
structure MathOps where
  pi : Frac
  sin : Frac → Frac
  cos : Frac → Frac
  sqrt : Frac → Frac
  atan2 : Frac → Frac → Frac

/-- The haversine distance of `findStations` (main.go 525-544), Earth
radius 6371 km. -/
def haversineDistance (ops : MathOps) (latUsr longUsr lat long : Frac) : Frac :=
  let p := ops.pi / 180
  let dLat := (latUsr - lat) * p
  let dLong := (longUsr - long) * p
  let a := ops.sin (dLat / 2) * ops.sin (dLat / 2) +
    ops.cos (latUsr * p) * ops.cos (lat * p) *
      ops.sin (dLong / 2) * ops.sin (dLong / 2)
  6371 * 2 * ops.atan2 (ops.sqrt a) (ops.sqrt (1 - a))

/-- One iteration of the station loop of `findStations` (main.go 528-566):
`none` models `continue`. -/
def matchStation (ops : MathOps) (inv : InventoryMap) (latUsr longUsr : Frac)
    (radius startYear endYear : Int) (s : Station) : Option Station :=
  match s.Latitude, s.Longitude with
  | some lat, some long =>
    let distance := haversineDistance ops latUsr longUsr lat long
    if Frac.ofInt radius < distance then none
    else
      match lookupAssoc inv s.ID with
      | none => none
      | some i =>
        if startYear < i.FirstYear ∨ i.LastYear < endYear then none
        else some { ID := s.ID, Name := s.Name, Latitude := s.Latitude,
                    Longitude := s.Longitude, Distance := distance }
  | _, _ => none

/-- The sort of the matched stations (main.go 569-577).  The Go code calls
`slices.SortFunc` with a comparator ordering by `Distance`;
`slices.SortFunc` promises an ordered permutation but no stability.  The
embedding uses an insertion sort by the same key as one admissible
implementation; the statements proved below about membership and length
hold for every ordered permutation. -/
def sortByDistance (stations : List Station) : List Station :=
  stations.insertionSort (fun a b => a.Distance ≤ b.Distance)

/-- The truncation loop of `findStations` (main.go 579-585): elements are
appended first, and the loop breaks once `i+1 == limit`.  A limit below 1
therefore never stops the loop. -/
def goLimitAux {α : Type} (limit : Int) : Nat → List α → List α
  | _, [] => []
  | i, x :: xs =>
    x :: (if (i : Int) + 1 = limit then [] else goLimitAux limit (i + 1) xs)

def goLimit {α : Type} (limit : Int) (l : List α) : List α := goLimitAux limit 0 l

/-- The stations surviving the loop filters of `findStations`
(main.go 523-566), before sorting and truncation. -/
def matchedStations (ops : MathOps) (allStations : List Station) (inv : InventoryMap)
    (latUsr longUsr : Frac) (radius startYear endYear : Int) : List Station :=
  allStations.filterMap (matchStation ops inv latUsr longUsr radius startYear endYear)

/-- `findStations` (main.go 522-587), with the registry globals
(`allStations`, `inventoryMap`) passed explicitly. -/
def findStations (ops : MathOps) (allStations : List Station) (inv : InventoryMap)
    (latUsr longUsr : Frac) (radius limit startYear endYear : Int) : List Station :=
  goLimit limit
    (sortByDistance (matchedStations ops allStations inv latUsr longUsr radius startYear endYear))

/-! ### Station data cache (`getStationData`) -/

structure CacheEntry where
  data : List RawStationData
  fetchedAt : Int
deriving DecidableEq

abbrev CacheState := List (String × CacheEntry)

/-- `cacheTTL = 1 * time.Hour`, in nanoseconds. -/
def cacheTTL : Int := 3600000000000

/-- `getStationData` (main.go 415-434) in a sequential execution.
`fetched` is the outcome `loadStationData(baseURL, id)` would produce,
`now` the current timestamp; the third component counts the upstream
fetches this call performs. -/
def getStationData (fetched : Except String (List RawStationData)) (now : Int)
    (id : String) (st : CacheState) :
    Except String (List RawStationData) × CacheState × Nat :=
  let doFetch : Except String (List RawStationData) × CacheState × Nat :=
    match fetched with
    | .error e => (.error e, st, 1)
    | .ok d => (.ok d, upsertAssoc st id ⟨d, now⟩, 1)
  match lookupAssoc st id with
  | some entry =>
    if now - entry.fetchedAt < cacheTTL then (.ok entry.data, st, 0) else doFetch
  | none => doFetch

/-! ### Helper lemmas on association lists and the truncation loop -/

theorem lookupAssoc_updateAssoc_self {β : Type} (m : List (String × β)) (k : String)
    (v w : β) (h : lookupAssoc m k = some w) :
    lookupAssoc (updateAssoc m k v) k = some v := by
  induction m with
  | nil => simp [lookupAssoc] at h
  | cons p rest ih =>
    by_cases hk : p.1 = k
    · simp [lookupAssoc, updateAssoc, hk]
    · simp [lookupAssoc, updateAssoc, hk] at h ⊢
      exact ih h

theorem lookupAssoc_updateAssoc_ne {β : Type} (m : List (String × β)) (k k' : String)
    (v : β) (h : k' ≠ k) :
    lookupAssoc (updateAssoc m k v) k' = lookupAssoc m k' := by
  induction m with
  | nil => simp [updateAssoc]
  | cons p rest ih =>
    by_cases hk : p.1 = k
    · have : ¬ (k = k') := fun he => h he.symm
      simp [lookupAssoc, updateAssoc, hk, this]
    · by_cases hk' : p.1 = k' <;> simp [lookupAssoc, updateAssoc, hk, hk', h, ih]

theorem updateAssoc_lookup_eq {β : Type} (m : List (String × β)) (k : String) (v : β)
    (h : lookupAssoc m k = some v) : updateAssoc m k v = m := by
  induction m with
  | nil => simp [lookupAssoc] at h
  | cons p rest ih =>
    obtain ⟨pk, pv⟩ := p
    by_cases hk : pk = k
    · subst hk
      simp [lookupAssoc] at h
      simp [updateAssoc, h]
    · simp [lookupAssoc, hk] at h
      simp [updateAssoc, hk, ih h]

theorem lookupAssoc_append_left {β : Type} (m l : List (String × β)) (k : String) (v : β)
    (h : lookupAssoc m k = some v) : lookupAssoc (m ++ l) k = some v := by
  induction m with
  | nil => simp [lookupAssoc] at h
  | cons p rest ih =>
    by_cases hk : p.1 = k <;> simp [lookupAssoc, hk] at h ⊢
    · exact h
    · exact ih h

theorem lookupAssoc_append_right {β : Type} (m l : List (String × β)) (k : String)
    (h : lookupAssoc m k = none) : lookupAssoc (m ++ l) k = lookupAssoc l k := by
  induction m with
  | nil => simp
  | cons p rest ih =>
    by_cases hk : p.1 = k <;> simp [lookupAssoc, hk] at h ⊢
    exact ih h

theorem lookupAssoc_upsert_self {β : Type} (m : List (String × β)) (k : String) (v : β) :
    lookupAssoc (upsertAssoc m k v) k = some v := by
  unfold upsertAssoc
  cases h : lookupAssoc m k with
  | some w => exact lookupAssoc_updateAssoc_self m k v w h
  | none =>
    rw [lookupAssoc_append_right m _ k h]
    simp [lookupAssoc]

theorem goLimitAux_subset {α : Type} (limit : Int) :
    ∀ (l : List α) (i : Nat) (x : α), x ∈ goLimitAux limit i l → x ∈ l := by
  intro l
  induction l with
  | nil => intro i x hx; simp [goLimitAux] at hx
  | cons a rest ih =>
    intro i x hx
    simp only [goLimitAux, List.mem_cons] at hx ⊢
    rcases hx with h | h
    · exact Or.inl h
    · split at h
      · simp at h
      · exact Or.inr (ih (i + 1) x h)

theorem goLimitAux_length {α : Type} (limit : Int) :
    ∀ (l : List α) (i : Nat),
      (goLimitAux limit i l).length =
        if (i : Int) < limit ∧ limit - i ≤ l.length then (limit - i).toNat
        else l.length := by
  intro l
  induction l with
  | nil =>
    intro i
    simp only [goLimitAux, List.length_nil]
    split <;> omega
  | cons a rest ih =>
    intro i
    simp only [goLimitAux, List.length_cons]
    by_cases hstop : (i : Int) + 1 = limit
    · rw [if_pos hstop]
      simp only [List.length_nil]
      split <;> omega
    · rw [if_neg hstop, ih (i + 1)]
      push_cast
      split <;> split <;> omega

theorem goLimit_length {α : Type} (limit : Int) (l : List α) :
    (goLimit limit l).length =
      if 0 < limit ∧ limit ≤ l.length then limit.toNat else l.length := by
  have h := goLimitAux_length limit l 0
  simpa [goLimit] using h

/-! ### Concrete fixtures used by witnesses and counterexamples -/

/-- A well-formed `ghcnd-stations.txt` line (71 characters). -/
def wStationLine : String :=
  "GME00102380  49.4700   11.0500 440.0  NURNBERG                         "

/-- A 71-character stations line whose latitude column does not parse as a
number. -/
def wBadLine : String :=
  "BAD0000001  ABCD.EFG   11.0500 440.0  BADCOORD                         "

/-- A well-formed `ghcnd-inventory.txt` line (45 characters). -/
def wInvLine : String :=
  "GME00102380  49.4700   11.0500 TMAX 1900 2023"

/-- Concrete trigonometric primitives for witnesses: any valuation of the
abstract `MathOps` record is admissible in the parametric theorems. -/
def stubOps : MathOps :=
  { pi := ⟨3, 1⟩
  , sin := fun _ => ⟨0, 1⟩
  , cos := fun _ => ⟨1, 1⟩
  , sqrt := fun q => q
  , atan2 := fun y _ => y }

def wStation : Station :=
  { ID := "STN001", Name := "Berlin", Latitude := some ⟨5252, 100⟩,
    Longitude := some ⟨13405, 1000⟩, Distance := ⟨0, 1⟩ }

def wInvMap : InventoryMap := [("STN001", ⟨1900, 2023⟩)]

def wObs : RawStationData := ⟨⟨2020, 1, 1⟩, "TMIN", 100⟩

/-! ### C5: cache behaviour of `getStationData` -/

/-- C5: in a sequential execution, the first `getStationData` call for an
identifier with no cache entry performs exactly one fetch and stores the
result under the current timestamp; a second call for the same identifier
within the TTL window performs zero fetches and returns the cached
observations, whatever the upstream would now produce; a call made once
the stored timestamp is TTL or older performs exactly one more fetch and
overwrites the stale entry with the fresh result. -/
theorem getStationData_cache_spec (id : String) (st : CacheState)
    (d d2 : List RawStationData) (t0 t1 t2 : Int)
    (h0 : lookupAssoc st id = none) (h1 : t1 - t0 < cacheTTL)
    (h2 : cacheTTL ≤ t2 - t0) :
    getStationData (.ok d) t0 id st = (.ok d, upsertAssoc st id ⟨d, t0⟩, 1) ∧
    (∀ f1, getStationData f1 t1 id (upsertAssoc st id ⟨d, t0⟩) =
      (.ok d, upsertAssoc st id ⟨d, t0⟩, 0)) ∧
    getStationData (.ok d2) t2 id (upsertAssoc st id ⟨d, t0⟩) =
      (.ok d2, upsertAssoc (upsertAssoc st id ⟨d, t0⟩) id ⟨d2, t2⟩, 1) ∧
    lookupAssoc (upsertAssoc (upsertAssoc st id ⟨d, t0⟩) id ⟨d2, t2⟩) id =
      some ⟨d2, t2⟩ := by
  refine ⟨?_, ?_, ?_, ?_⟩
  · simp [getStationData, h0]
  · intro f1
    simp [getStationData, lookupAssoc_upsert_self, h1]
  · simp [getStationData, lookupAssoc_upsert_self, Int.not_lt.mpr h2]
  · exact lookupAssoc_upsert_self _ _ _

/-- Witness for C5 at a concrete identifier, store and timeline. -/
theorem getStationData_cache_spec_witness :
    getStationData (.ok [wObs]) 0 "STN001" [] =
      (.ok [wObs], upsertAssoc [] "STN001" ⟨[wObs], 0⟩, 1) ∧
    getStationData (.error "down") 10 "STN001" (upsertAssoc [] "STN001" ⟨[wObs], 0⟩) =
      (.ok [wObs], upsertAssoc [] "STN001" ⟨[wObs], 0⟩, 0) ∧
    getStationData (.ok []) cacheTTL "STN001" (upsertAssoc [] "STN001" ⟨[wObs], 0⟩) =
      (.ok [], upsertAssoc (upsertAssoc [] "STN001" ⟨[wObs], 0⟩) "STN001" ⟨[], cacheTTL⟩, 1) :=
  ⟨(getStationData_cache_spec "STN001" [] [wObs] [] 0 10 cacheTTL (by decide) (by decide)
      (by decide)).1,
   (getStationData_cache_spec "STN001" [] [wObs] [] 0 10 cacheTTL (by decide) (by decide)
      (by decide)).2.1 (.error "down"),
   (getStationData_cache_spec "STN001" [] [wObs] [] 0 10 cacheTTL (by decide) (by decide)
      (by decide)).2.2.1⟩

/-! ### C10: a failing fetch leaves the cache untouched -/

/-- C10: when the upstream fetch actually runs (no entry, or only a stale
entry, for the requested identifier) and fails, `getStationData` returns
that error, performs the one failed fetch, and leaves the cache state
exactly as it was — no entry inserted, removed or overwritten for any
identifier. -/
theorem getStationData_fetch_error_spec (id : String) (st : CacheState) (now : Int)
    (msg : String)
    (h : lookupAssoc st id = none ∨
      ∃ entry, lookupAssoc st id = some entry ∧ cacheTTL ≤ now - entry.fetchedAt) :
    getStationData (.error msg) now id st = (.error msg, st, 1) := by
  rcases h with h | ⟨entry, he, hstale⟩
  · simp [getStationData, h]
  · simp [getStationData, he, Int.not_lt.mpr hstale]

/-- Witness for C10: a stale entry for the identifier is retained untouched
and the error is surfaced. -/
theorem getStationData_fetch_error_spec_witness :
    getStationData (.error "Netzwerkfehler") cacheTTL "STN001" [("STN001", ⟨[wObs], 0⟩)] =
      (.error "Netzwerkfehler", [("STN001", ⟨[wObs], 0⟩)], 1) :=
  getStationData_fetch_error_spec "STN001" [("STN001", ⟨[wObs], 0⟩)] cacheTTL
    "Netzwerkfehler" (Or.inr ⟨⟨[wObs], 0⟩, by decide, by decide⟩)

theorem goLimitAux_eq_self {α : Type} (limit : Int) :
    ∀ (l : List α) (i : Nat), (limit ≤ i ∨ (l.length : Int) ≤ limit - i) →
      goLimitAux limit i l = l := by
  intro l
  induction l with
  | nil => intro i _; simp [goLimitAux]
  | cons a rest ih =>
    intro i hi
    simp only [goLimitAux]
    by_cases hstop : (i : Int) + 1 = limit
    · have hlen : rest.length = 0 := by
        simp only [List.length_cons] at hi
        push_cast at hi
        omega
      rw [if_pos hstop, List.length_eq_zero.mp hlen]
    · rw [if_neg hstop, ih (i + 1) (by simp only [List.length_cons] at hi; push_cast at hi ⊢; omega)]

/-! ### C7: truncation to the requested limit -/

/-- C7 (amended): for a limit of at least 1, `findStations` returns
min(limit, number of qualifying stations) entries, so a limit at or above
the qualifying count is a no-op returning the full sorted list; a limit of
0 or below never triggers the break and returns all qualifying stations
untruncated. -/
theorem findStations_limit_spec (ops : MathOps) (allStations : List Station)
    (inv : InventoryMap) (latUsr longUsr : Frac) (radius limit startYear endYear : Int) :
    (1 ≤ limit →
      (findStations ops allStations inv latUsr longUsr radius limit startYear endYear).length =
        min limit.toNat
          (matchedStations ops allStations inv latUsr longUsr radius startYear endYear).length) ∧
    (limit ≤ 0 →
      (findStations ops allStations inv latUsr longUsr radius limit startYear endYear).length =
        (matchedStations ops allStations inv latUsr longUsr radius startYear endYear).length) ∧
    (((matchedStations ops allStations inv latUsr longUsr radius startYear endYear).length : Int) ≤ limit →
      findStations ops allStations inv latUsr longUsr radius limit startYear endYear =
        sortByDistance (matchedStations ops allStations inv latUsr longUsr radius startYear endYear)) := by
  have hlen : (sortByDistance
      (matchedStations ops allStations inv latUsr longUsr radius startYear endYear)).length =
      (matchedStations ops allStations inv latUsr longUsr radius startYear endYear).length :=
    List.length_insertionSort _ _
  refine ⟨?_, ?_, ?_⟩
  · intro hlim
    rw [findStations, goLimit_length, hlen]
    split <;> omega
  · intro hlim
    rw [findStations, goLimit_length, hlen]
    split <;> omega
  · intro hlim
    rw [findStations, goLimit]
    exact goLimitAux_eq_self limit _ 0 (by rw [hlen]; omega)

/-- Witness for C7 at a concrete registry and query, once with limit 1 and
once with limit -3. -/
theorem findStations_limit_spec_witness :
    (findStations stubOps [wStation] wInvMap ⟨5252, 100⟩ ⟨13405, 1000⟩ 100 1 1950 2020).length =
      min ((1 : Int).toNat)
        (matchedStations stubOps [wStation] wInvMap ⟨5252, 100⟩ ⟨13405, 1000⟩ 100 1950 2020).length ∧
    (findStations stubOps [wStation] wInvMap ⟨5252, 100⟩ ⟨13405, 1000⟩ 100 (-3) 1950 2020).length =
      (matchedStations stubOps [wStation] wInvMap ⟨5252, 100⟩ ⟨13405, 1000⟩ 100 1950 2020).length :=
  ⟨(findStations_limit_spec stubOps [wStation] wInvMap ⟨5252, 100⟩ ⟨13405, 1000⟩
      100 1 1950 2020).1 (by decide),
   (findStations_limit_spec stubOps [wStation] wInvMap ⟨5252, 100⟩ ⟨13405, 1000⟩
      100 (-3) 1950 2020).2.1 (by decide)⟩

/-- Counterexample to C7 as stated: with limit 0 and one qualifying
station, the code returns that station while min(limit, count) = 0. -/
theorem claim7_counterexample :
    (findStations stubOps [wStation] wInvMap ⟨5252, 100⟩ ⟨13405, 1000⟩ 100 0 1950 2020).length = 1 ∧
    min ((0 : Int).toNat)
      (matchedStations stubOps [wStation] wInvMap ⟨5252, 100⟩ ⟨13405, 1000⟩ 100 1950 2020).length = 0 :=
  ⟨by decide, by decide⟩

/-! ### C9: malformed coordinates in the stations file -/

/-- C9 (amended): `initStations` stores pointers to the parsed-or-zero
coordinate values for every accepted line: a malformed latitude or
longitude field parses to zero with the error discarded, and the stored
coordinates are always present (never nil), so the coordinate-presence
check of `findStations` never excludes a station loaded by
`initStations`. -/
theorem initStations_coordinates_spec :
    (∀ line s, parseStationLine line = some s →
      s.Latitude = some ((goParseFloat ((goTrim (goSlice line.data 12 20)).asString)).getD 0) ∧
      s.Longitude = some ((goParseFloat ((goTrim (goSlice line.data 21 30)).asString)).getD 0)) ∧
    (∀ lines st s, s ∈ initStations lines st →
      s ∈ st ∨ ((∃ lat, s.Latitude = some lat) ∧ ∃ long, s.Longitude = some long)) := by
  constructor
  · intro line s h
    rw [parseStationLine] at h
    split at h
    · exact absurd h (by simp)
    · rw [Option.some_inj] at h
      subst h
      exact ⟨rfl, rfl⟩
  · intro lines st s h
    rw [initStations, List.mem_append] at h
    rcases h with h | h
    · exact Or.inl h
    · obtain ⟨line, _, hp⟩ := List.mem_filterMap.mp h
      rcases hp.symm ▸ (by rfl : parseStationLine line = parseStationLine line) with _
      rw [parseStationLine] at hp
      split at hp
      · exact absurd hp (by simp)
      · rw [Option.some_inj] at hp
        subst hp
        exact Or.inr ⟨⟨_, rfl⟩, ⟨_, rfl⟩⟩

/-- Witness for C9: the bad-latitude fixture line yields a station whose
coordinates both read as the parsed-or-zero values. -/
theorem initStations_coordinates_spec_witness :
    (⟨"BAD0000001", "BADCOORD", some ⟨0, 1⟩, some ⟨110500, 10000⟩, ⟨0, 1⟩⟩ : Station).Latitude =
      some ((goParseFloat ((goTrim (goSlice wBadLine.data 12 20)).asString)).getD 0) ∧
    (⟨"BAD0000001", "BADCOORD", some ⟨0, 1⟩, some ⟨110500, 10000⟩, ⟨0, 1⟩⟩ : Station).Longitude =
      some ((goParseFloat ((goTrim (goSlice wBadLine.data 21 30)).asString)).getD 0) :=
  initStations_coordinates_spec.1 wBadLine
    ⟨"BAD0000001", "BADCOORD", some ⟨0, 1⟩, some ⟨110500, 10000⟩, ⟨0, 1⟩⟩ (by decide)

/-- Counterexample to C9 as stated: on a line whose latitude field fails
numeric parsing, the loaded record still has the latitude present (zero),
not absent. -/
theorem claim9_counterexample :
    goParseFloat ((goTrim (goSlice wBadLine.data 12 20)).asString) = none ∧
    parseStationLine wBadLine =
      some ⟨"BAD0000001", "BADCOORD", some ⟨0, 1⟩, some ⟨110500, 10000⟩, ⟨0, 1⟩⟩ ∧
    (parseStationLine wBadLine).map (fun s => s.Latitude) ≠ some none :=
  ⟨by decide, by decide, by decide⟩

/-! ### C8: re-running the registry loaders -/

/-- The map `m` already covers inventory entry `e`: the id is bound and its
span contains the entry's span. -/
def invCovers (m : InventoryMap) (e : String × Int × Int) : Prop :=
  ∃ i, lookupAssoc m e.1 = some i ∧ i.FirstYear ≤ e.2.1 ∧ e.2.2 ≤ i.LastYear

theorem invStep_of_covers (m : InventoryMap) (e : String × Int × Int)
    (h : invCovers m e) : invStep m e = m := by
  obtain ⟨i, hl, hf, hlast⟩ := h
  rw [invStep, hl]
  have h1 : ¬ e.2.1 < i.FirstYear := by omega
  have h2 : ¬ i.LastYear < e.2.2 := by omega
  simp only [if_neg h1, if_neg h2]
  exact updateAssoc_lookup_eq m e.1 i hl

theorem invCovers_invStep_self (m : InventoryMap) (e : String × Int × Int) :
    invCovers (invStep m e) e := by
  rw [invStep]
  cases hl : lookupAssoc m e.1 with
  | some i =>
    refine ⟨_, lookupAssoc_updateAssoc_self m e.1 _ i hl, ?_, ?_⟩ <;> dsimp <;>
      split <;> omega
  | none =>
    refine ⟨⟨e.2.1, e.2.2⟩, ?_, le_refl _, le_refl _⟩
    rw [lookupAssoc_append_right m _ _ hl]
    simp [lookupAssoc]

theorem invCovers_invStep (m : InventoryMap) (e f : String × Int × Int)
    (h : invCovers m e) : invCovers (invStep m f) e := by
  obtain ⟨i, hl, hf, hlast⟩ := h
  rw [invStep]
  cases hlf : lookupAssoc m f.1 with
  | some j =>
    by_cases hk : e.1 = f.1
    · rw [hk] at hl
      rw [hl] at hlf
      injection hlf with hij
      subst hij
      refine ⟨_, by rw [hk]; exact lookupAssoc_updateAssoc_self m f.1 _ i hl, ?_, ?_⟩ <;>
        dsimp <;> split <;> omega
    · exact ⟨i, by rw [lookupAssoc_updateAssoc_ne m f.1 e.1 _ hk]; exact hl, hf, hlast⟩
  | none =>
    by_cases hk : e.1 = f.1
    · rw [hk] at hl
      rw [hl] at hlf
      exact absurd hlf (by simp)
    · exact ⟨i, lookupAssoc_append_left m _ e.1 i hl, hf, hlast⟩

theorem foldl_invStep_covers (P : List (String × Int × Int)) :
    ∀ (m : InventoryMap) (e : String × Int × Int),
      invCovers m e → invCovers (P.foldl invStep m) e := by
  induction P with
  | nil => intro m e h; exact h
  | cons f rest ih => intro m e h; exact ih _ _ (invCovers_invStep m e f h)

theorem foldl_invStep_covers_mem (P : List (String × Int × Int)) :
    ∀ (m : InventoryMap) (e : String × Int × Int),
      e ∈ P → invCovers (P.foldl invStep m) e := by
  induction P with
  | nil => intro m e he; simp at he
  | cons f rest ih =>
    intro m e he
    rcases List.mem_cons.mp he with rfl | he
    · exact foldl_invStep_covers rest (invStep m e) e (invCovers_invStep_self m e)
    · exact ih _ _ he

theorem foldl_invStep_of_covers (P : List (String × Int × Int)) :
    ∀ (m : InventoryMap), (∀ e ∈ P, invCovers m e) → P.foldl invStep m = m := by
  induction P with
  | nil => intro m _; rfl
  | cons f rest ih =>
    intro m h
    rw [List.foldl_cons, invStep_of_covers m f (h f (by simp))]
    exact ih m (fun e he => h e (by simp [he]))

/-- C8 (amended): re-running `loadInventory` over the same input leaves the
coverage index equal to the result of a single run (the min/max merge is
idempotent), but `initStations` appends to the existing station list
without clearing it, so a second run over the same input duplicates every
station instead of replacing the prior state. -/
theorem registry_reload_spec :
    (∀ lines, loadInventory lines (loadInventory lines []) = loadInventory lines []) ∧
    (∀ lines st, initStations lines st = st ++ lines.filterMap parseStationLine) ∧
    (∀ lines, initStations lines (initStations lines []) =
      lines.filterMap parseStationLine ++ lines.filterMap parseStationLine) := by
  refine ⟨?_, fun lines st => rfl, fun lines => by simp [initStations]⟩
  intro lines
  rw [loadInventory, loadInventory]
  exact foldl_invStep_of_covers _ _ (fun e he => foldl_invStep_covers_mem _ [] e he)

/-- Counterexample to C8 as stated: a second `initStations` run over the
same one-line input leaves two copies of the station, not the single-run
state. -/
theorem claim8_counterexample :
    initStations [wStationLine] (initStations [wStationLine] []) ≠
      initStations [wStationLine] [] ∧
    (initStations [wStationLine] (initStations [wStationLine] [])).length = 2 ∧
    (initStations [wStationLine] []).length = 1 :=
  ⟨by decide, by decide, by decide⟩

/-! ### C4: materialized observation records -/

theorem parseDate_valid {s : String} {dt : Date} (h : parseDate s = some dt) :
    1 ≤ dt.month ∧ dt.month ≤ 12 ∧ 1 ≤ dt.day ∧
      dt.day ≤ daysInMonth dt.year dt.month := by
  unfold parseDate at h
  split at h
  · split at h
    · dsimp only at h
      split at h
      · rename_i hrange
        rw [Option.some_inj] at h
        subst h
        simp only [Bool.and_eq_true, decide_eq_true_eq] at hrange
        exact ⟨hrange.1.1.1, hrange.1.1.2, hrange.1.2, hrange.2⟩
      · exact absurd h (by simp)
    · exact absurd h (by simp)
  · exact absurd h (by simp)

theorem parseObsRow_some {row : List String} {r : RawStationData}
    (h : parseObsRow row = some r) :
    (r.ElementType = "TMIN" ∨ r.ElementType = "TMAX") ∧
    r.Value ≠ -9999 ∧
    ∃ id0 dateStr valueStr rest,
      row = id0 :: dateStr :: r.ElementType :: valueStr :: rest ∧
      parseDate dateStr = some r.Date ∧ goAtoi valueStr = some r.Value := by
  match row with
  | [] => exact absurd h (by simp [parseObsRow])
  | [_] => exact absurd h (by simp [parseObsRow])
  | [_, _] => exact absurd h (by simp [parseObsRow])
  | [_, _, _] => exact absurd h (by simp [parseObsRow])
  | id0 :: dateStr :: element :: valueStr :: rest =>
    rw [parseObsRow] at h
    split at h
    · exact absurd h (by simp)
    · rename_i hel
      simp only [Bool.and_eq_true, decide_eq_true_eq, not_and_or, not_not] at hel
      cases hd : parseDate dateStr with
      | none => rw [hd] at h; exact absurd h (by simp)
      | some date =>
        rw [hd] at h
        dsimp only at h
        cases hv : goAtoi valueStr with
        | none => rw [hv] at h; exact absurd h (by simp)
        | some val =>
          rw [hv] at h
          dsimp only at h
          split at h
          · exact absurd h (by simp)
          · rename_i hsent
            rw [Option.some_inj] at h
            subst h
            exact ⟨hel, hsent, id0, dateStr, valueStr, rest, rfl, hd, hv⟩

/-- C4: every record materialized by `loadStationData` from a successfully
fetched feed has element type TMIN or TMAX, a date that parsed under the
fixed YYYYMMDD layout (month and day-of-month in range), and a value
different from the sentinel -9999, and it stems from a post-header row with
at least four columns; the header row is discarded unconditionally and all
skips are silent (the parsing stage is total and never produces an
error). -/
theorem loadStationData_materialized_spec (rows : List (List String)) :
    (∀ hd rest, rows = hd :: rest →
      loadStationData rows = rest.filterMap parseObsRow) ∧
    (∀ r, r ∈ loadStationData rows →
      (r.ElementType = "TMIN" ∨ r.ElementType = "TMAX") ∧
      r.Value ≠ -9999 ∧
      (1 ≤ r.Date.month ∧ r.Date.month ≤ 12 ∧ 1 ≤ r.Date.day ∧
        r.Date.day ≤ daysInMonth r.Date.year r.Date.month) ∧
      ∃ row ∈ rows.drop 1, ∃ id0 dateStr valueStr tailCols,
        row = id0 :: dateStr :: r.ElementType :: valueStr :: tailCols ∧
        parseDate dateStr = some r.Date ∧ goAtoi valueStr = some r.Value) := by
  constructor
  · intro hd rest h
    subst h
    rfl
  · intro r hr
    cases rows with
    | nil => simp [loadStationData] at hr
    | cons hd rest =>
      have hr' : r ∈ rest.filterMap parseObsRow := hr
      obtain ⟨row, hrow, hp⟩ := List.mem_filterMap.mp hr'
      obtain ⟨hel, hsent, id0, dateStr, valueStr, tailCols, hshape, hdate, hval⟩ :=
        parseObsRow_some hp
      exact ⟨hel, hsent, parseDate_valid hdate,
        row, by simpa using hrow, id0, dateStr, valueStr, tailCols, hshape, hdate, hval⟩

/-- Concrete CSV records (after decoding, header included) exercising the
skip rules: a valid TMIN row, a bad date, a non-temperature element and a
sentinel value. -/
def wRows : List (List String) :=
  [["ID", "DATE", "ELEMENT", "DATA_VALUE", "M_FLAG", "Q_FLAG", "S_FLAG", "OBS_TIME"],
   ["STN001", "20200101", "TMIN", "50", "", "", "S", "0700"],
   ["STN001", "baddate1", "TMIN", "200", "", "", "S", ""],
   ["STN001", "20200102", "PRCP", "5", "", "", "S", ""],
   ["STN001", "20200103", "TMAX", "-9999", "", "", "S", ""]]

/-- Witness for C4 on the concrete feed: the surviving record is the valid
TMIN row and it satisfies all materialization invariants. -/
theorem loadStationData_materialized_spec_witness :
    ("TMIN" = "TMIN" ∨ "TMIN" = "TMAX") ∧
    (50 : Int) ≠ -9999 ∧
    (1 ≤ 1 ∧ 1 ≤ 12 ∧ 1 ≤ 1 ∧ 1 ≤ daysInMonth 2020 1) ∧
    (∃ row ∈ wRows.drop 1, ∃ id0 dateStr valueStr tailCols,
      row = id0 :: dateStr :: "TMIN" :: valueStr :: tailCols ∧
      parseDate dateStr = some ⟨2020, 1, 1⟩ ∧ goAtoi valueStr = some 50) :=
  (loadStationData_materialized_spec wRows).2 ⟨⟨2020, 1, 1⟩, "TMIN", 50⟩ (by decide)

/-! ### C1: which stations `findStations` returns -/

theorem matchStation_some {ops : MathOps} {inv : InventoryMap} {latUsr longUsr : Frac}
    {radius startYear endYear : Int} {s0 s : Station}
    (h : matchStation ops inv latUsr longUsr radius startYear endYear s0 = some s) :
    ∃ lat long, s0.Latitude = some lat ∧ s0.Longitude = some long ∧
      haversineDistance ops latUsr longUsr lat long ≤ Frac.ofInt radius ∧
      ∃ i, lookupAssoc inv s0.ID = some i ∧ i.FirstYear ≤ startYear ∧
        endYear ≤ i.LastYear ∧
        s = ⟨s0.ID, s0.Name, s0.Latitude, s0.Longitude,
              haversineDistance ops latUsr longUsr lat long⟩ := by
  rw [matchStation] at h
  cases hlat : s0.Latitude with
  | none => rw [hlat] at h; exact absurd h (by simp)
  | some lat =>
    cases hlong : s0.Longitude with
    | none => rw [hlat, hlong] at h; exact absurd h (by simp)
    | some long =>
      rw [hlat, hlong] at h
      dsimp only at h
      split at h
      · exact absurd h (by simp)
      · rename_i hdist
        cases hinv : lookupAssoc inv s0.ID with
        | none => rw [hinv] at h; exact absurd h (by simp)
        | some i =>
          rw [hinv] at h
          dsimp only at h
          split at h
          · exact absurd h (by simp)
          · rename_i hcov
            push_neg at hcov
            rw [Option.some_inj] at h
            exact ⟨lat, long, rfl, rfl, Int.not_lt.mp hdist, i, rfl, hcov.1, hcov.2, h.symm⟩

/-- C1: a station appears in the result of `findStations` only if it has
both coordinates present, its haversine distance (Earth radius 6371 km)
from the query point is at most the radius, and its coverage entry
satisfies first-year ≤ startYear and last-year ≥ endYear; conversely every
station of the registry satisfying these three conditions is in the sorted
candidate list, from which the result is produced by limit truncation
alone. -/
theorem findStations_membership_spec (ops : MathOps) (allStations : List Station)
    (inv : InventoryMap) (latUsr longUsr : Frac) (radius limit startYear endYear : Int) :
    (∀ s, s ∈ findStations ops allStations inv latUsr longUsr radius limit startYear endYear →
      ∃ s0 ∈ allStations, ∃ lat long,
        s0.Latitude = some lat ∧ s0.Longitude = some long ∧
        haversineDistance ops latUsr longUsr lat long ≤ Frac.ofInt radius ∧
        ∃ i, lookupAssoc inv s0.ID = some i ∧ i.FirstYear ≤ startYear ∧
          endYear ≤ i.LastYear ∧
          s = ⟨s0.ID, s0.Name, s0.Latitude, s0.Longitude,
                haversineDistance ops latUsr longUsr lat long⟩) ∧
    (∀ s0 ∈ allStations, ∀ lat long i,
      s0.Latitude = some lat → s0.Longitude = some long →
      haversineDistance ops latUsr longUsr lat long ≤ Frac.ofInt radius →
      lookupAssoc inv s0.ID = some i → i.FirstYear ≤ startYear → endYear ≤ i.LastYear →
      (⟨s0.ID, s0.Name, s0.Latitude, s0.Longitude,
          haversineDistance ops latUsr longUsr lat long⟩ : Station) ∈
        sortByDistance
          (matchedStations ops allStations inv latUsr longUsr radius startYear endYear)) := by
  constructor
  · intro s hs
    rw [findStations] at hs
    have hs1 := goLimitAux_subset limit _ 0 s hs
    rw [sortByDistance] at hs1
    have hs2 := (List.mem_insertionSort _).mp hs1
    rw [matchedStations] at hs2
    obtain ⟨s0, hs0, hm⟩ := List.mem_filterMap.mp hs2
    exact ⟨s0, hs0, matchStation_some hm⟩
  · intro s0 hs0 lat long i hlat hlong hdist hinv hfirst hlast
    have hm : matchStation ops inv latUsr longUsr radius startYear endYear s0 =
        some ⟨s0.ID, s0.Name, s0.Latitude, s0.Longitude,
              haversineDistance ops latUsr longUsr lat long⟩ := by
      rw [matchStation, hlat, hlong]
      dsimp only
      have hnd : ¬(Frac.ofInt radius < haversineDistance ops latUsr longUsr lat long) :=
        Int.not_lt.mpr hdist
      rw [if_neg hnd, hinv]
      dsimp only
      have hnc : ¬(startYear < i.FirstYear ∨ i.LastYear < endYear) := by
        push_neg
        exact ⟨hfirst, hlast⟩
      rw [if_neg hnc]
    rw [sortByDistance, matchedStations]
    exact (List.mem_insertionSort _).mpr (List.mem_filterMap.mpr ⟨s0, hs0, hm⟩)

/-- Witness for C1: the co-located fixture station qualifies and sits in
the candidate list. -/
theorem findStations_membership_spec_witness :
    (⟨"STN001", "Berlin", some ⟨5252, 100⟩, some ⟨13405, 1000⟩,
        haversineDistance stubOps ⟨5252, 100⟩ ⟨13405, 1000⟩ ⟨5252, 100⟩ ⟨13405, 1000⟩⟩ : Station) ∈
      sortByDistance
        (matchedStations stubOps [wStation] wInvMap ⟨5252, 100⟩ ⟨13405, 1000⟩ 100 1950 2020) :=
  (findStations_membership_spec stubOps [wStation] wInvMap ⟨5252, 100⟩ ⟨13405, 1000⟩
      100 10 1950 2020).2
    wStation (by decide) ⟨5252, 100⟩ ⟨13405, 1000⟩ ⟨1900, 2023⟩
    (by decide) (by decide) (by decide) (by decide) (by decide) (by decide)

/-! ### C2: annual averages -/

/-- The worked example of the claim: TMIN values 100, 200, 103 in one
year. -/
def wAnnualExample : List RawStationData :=
  [⟨⟨2020, 1, 1⟩, "TMIN", 100⟩, ⟨⟨2020, 1, 2⟩, "TMIN", 200⟩,
   ⟨⟨2020, 1, 3⟩, "TMIN", 103⟩]

/-- C2: `calculateAnnualAvg` returns the empty list on empty input; its
rows carry strictly increasing years; each row belongs to a year with at
least one observation; a kind with no observation that year is absent
(never zero), and a kind with observations carries the mean of its values
divided by 10 and rounded to two decimals; the worked example
(TMIN 100, 200, 103) yields exactly the row 2020 with mean-min
13.43 = 1343/100 and absent mean-max. -/
theorem calculateAnnualAvg_spec :
    calculateAnnualAvg [] = [] ∧
    (∀ rawData,
      List.Pairwise (· < ·) ((calculateAnnualAvg rawData).map (fun e => e.Year))) ∧
    (∀ rawData e, e ∈ calculateAnnualAvg rawData →
      (∃ d ∈ rawData, d.Date.year = e.Year) ∧
      (annualCount rawData e.Year "TMIN" = 0 → e.TMin = none) ∧
      (0 < annualCount rawData e.Year "TMIN" →
        e.TMin = some (round2 ((Frac.ofInt (annualSum rawData e.Year "TMIN") /
          Frac.ofInt (annualCount rawData e.Year "TMIN")) / 10))) ∧
      (annualCount rawData e.Year "TMAX" = 0 → e.TMax = none) ∧
      (0 < annualCount rawData e.Year "TMAX" →
        e.TMax = some (round2 ((Frac.ofInt (annualSum rawData e.Year "TMAX") /
          Frac.ofInt (annualCount rawData e.Year "TMAX")) / 10)))) ∧
    (∀ rawData d, d ∈ rawData →
      ∃ e ∈ calculateAnnualAvg rawData, e.Year = d.Date.year) ∧
    calculateAnnualAvg wAnnualExample = [⟨2020, some ⟨1343, 100⟩, none⟩] := by
  refine ⟨rfl, ?_, ?_, ?_, by decide⟩
  · intro rawData
    have h1 : List.Pairwise (· ≤ ·)
        ((annualYears rawData).insertionSort (· ≤ ·)) :=
      List.sorted_insertionSort (· ≤ ·) (annualYears rawData)
    have h2 : ((annualYears rawData).insertionSort (· ≤ ·)).Nodup :=
      (List.Perm.nodup_iff (List.perm_insertionSort _ _)).mpr (List.nodup_dedup _)
    have h3 := List.Pairwise.imp (fun hab => lt_of_le_of_ne hab.1 hab.2)
      (List.Pairwise.and h1 h2)
    rw [calculateAnnualAvg, List.map_map]
    rw [List.pairwise_map]
    exact h3
  · intro rawData e he
    rw [calculateAnnualAvg] at he
    obtain ⟨y, hy, rfl⟩ := List.mem_map.mp he
    have hy2 : y ∈ (rawData.map (fun d => d.Date.year)).dedup :=
      (List.mem_insertionSort _).mp hy
    obtain ⟨d, hd, hdy⟩ := List.mem_map.mp (List.mem_dedup.mp hy2)
    refine ⟨⟨d, hd, hdy⟩, ?_, ?_, ?_, ?_⟩
    · intro h0
      simp only [mkAnnual] at h0 ⊢
      rw [if_neg (by omega)]
    · intro h0
      simp only [mkAnnual] at h0 ⊢
      rw [if_pos h0]
    · intro h0
      simp only [mkAnnual] at h0 ⊢
      rw [if_neg (by omega)]
    · intro h0
      simp only [mkAnnual] at h0 ⊢
      rw [if_pos h0]
  · intro rawData d hd
    rw [calculateAnnualAvg]
    refine ⟨mkAnnual rawData d.Date.year, List.mem_map.mpr
      ⟨d.Date.year, (List.mem_insertionSort _).mpr ?_, rfl⟩, rfl⟩
    rw [annualYears]
    exact List.mem_dedup.mpr (List.mem_map.mpr ⟨d, hd, rfl⟩)

/-- Witness for C2: the worked-example row is in the output and its year
stems from an observation of the input. -/
theorem calculateAnnualAvg_spec_witness :
    (⟨2020, some ⟨1343, 100⟩, none⟩ : AnnualStationData) ∈
      calculateAnnualAvg wAnnualExample ∧
    ∃ d ∈ wAnnualExample,
      d.Date.year = (⟨2020, some ⟨1343, 100⟩, none⟩ : AnnualStationData).Year :=
  ⟨by decide,
   (calculateAnnualAvg_spec.2.2.1 wAnnualExample ⟨2020, some ⟨1343, 100⟩, none⟩
      (by decide)).1⟩

/-! ### C3: seasonal averages -/

theorem seasonOf_mem (m : Nat) :
    seasonOf m = "Spring" ∨ seasonOf m = "Summer" ∨ seasonOf m = "Autumn" ∨
      seasonOf m = "Winter" ∨ seasonOf m = "" := by
  unfold seasonOf
  split_ifs <;> simp

theorem seasonRank_inj {s1 s2 : String}
    (h1 : s1 = "Spring" ∨ s1 = "Summer" ∨ s1 = "Autumn" ∨ s1 = "Winter" ∨ s1 = "")
    (h2 : s2 = "Spring" ∨ s2 = "Summer" ∨ s2 = "Autumn" ∨ s2 = "Winter" ∨ s2 = "")
    (h : seasonRank s1 = seasonRank s2) : s1 = s2 := by
  rcases h1 with rfl | rfl | rfl | rfl | rfl <;>
    rcases h2 with rfl | rfl | rfl | rfl | rfl <;>
    first
      | rfl
      | exact absurd h (by decide)

/-- The out-of-order four-season input of the claim. -/
def wSeasonExample : List RawStationData :=
  [⟨⟨2020, 7, 15⟩, "TMIN", 100⟩, ⟨⟨2020, 1, 15⟩, "TMIN", 100⟩,
   ⟨⟨2020, 10, 15⟩, "TMIN", 100⟩, ⟨⟨2020, 4, 15⟩, "TMIN", 100⟩]

/-- C3: `calculateSeasonalAvg` assigns each observation to the season of
its month per the fixed mapping (December to Winter of the same calendar
year, not shifted), every observation's (year, season) key is represented
in the output, and the output is strictly sorted by year ascending and
within one year by the fixed priority Winter, Spring, Summer, Autumn,
regardless of input order — as the four-season example shows. -/
theorem calculateSeasonalAvg_spec :
    calculateSeasonalAvg [] = [] ∧
    (seasonOf 12 = "Winter" ∧ seasonOf 1 = "Winter" ∧ seasonOf 2 = "Winter" ∧
     seasonOf 3 = "Spring" ∧ seasonOf 4 = "Spring" ∧ seasonOf 5 = "Spring" ∧
     seasonOf 6 = "Summer" ∧ seasonOf 7 = "Summer" ∧ seasonOf 8 = "Summer" ∧
     seasonOf 9 = "Autumn" ∧ seasonOf 10 = "Autumn" ∧ seasonOf 11 = "Autumn") ∧
    (∀ rawData d, d ∈ rawData →
      ∃ e ∈ calculateSeasonalAvg rawData,
        e.Year = d.Date.year ∧ e.Season = seasonOf d.Date.month) ∧
    (∀ rawData,
      List.Pairwise
        (fun a b => a.Year < b.Year ∨
          (a.Year = b.Year ∧ seasonRank a.Season < seasonRank b.Season))
        (calculateSeasonalAvg rawData)) ∧
    (calculateSeasonalAvg wSeasonExample).map (fun e => (e.Year, e.Season)) =
      [(2020, "Winter"), (2020, "Spring"), (2020, "Summer"), (2020, "Autumn")] := by
  refine ⟨rfl, by decide, ?_, ?_, by decide⟩
  · intro rawData d hd
    rw [calculateSeasonalAvg]
    refine ⟨mkSeasonal rawData (d.Date.year, seasonOf d.Date.month), List.mem_map.mpr
      ⟨(d.Date.year, seasonOf d.Date.month), (List.mem_insertionSort _).mpr ?_, rfl⟩,
      rfl, rfl⟩
    rw [seasonalKeys]
    exact List.mem_dedup.mpr (List.mem_map.mpr ⟨d, hd, rfl⟩)
  · intro rawData
    haveI htot : IsTotal (Nat × String) seasonalKeyLe := by
      constructor
      intro a b
      unfold seasonalKeyLe
      rcases le_total (seasonRank a.2) (seasonRank b.2) with hr | hr <;> omega
    haveI htr : IsTrans (Nat × String) seasonalKeyLe := by
      constructor
      intro a b c hab hbc
      unfold seasonalKeyLe at hab hbc ⊢
      omega
    have h1 : List.Pairwise seasonalKeyLe
        ((seasonalKeys rawData).insertionSort seasonalKeyLe) :=
      List.sorted_insertionSort seasonalKeyLe (seasonalKeys rawData)
    have h2 : ((seasonalKeys rawData).insertionSort seasonalKeyLe).Nodup :=
      (List.Perm.nodup_iff (List.perm_insertionSort _ _)).mpr (List.nodup_dedup _)
    have hseason : ∀ a, a ∈ (seasonalKeys rawData).insertionSort seasonalKeyLe →
        a.2 = "Spring" ∨ a.2 = "Summer" ∨ a.2 = "Autumn" ∨ a.2 = "Winter" ∨ a.2 = "" := by
      intro a ha
      have ha2 := List.mem_dedup.mp ((List.mem_insertionSort _).mp ha)
      obtain ⟨d, _, hda⟩ := List.mem_map.mp ha2
      rw [← hda]
      exact seasonOf_mem d.Date.month
    have h3 : List.Pairwise
        (fun a b : Nat × String => a.1 < b.1 ∨
          (a.1 = b.1 ∧ seasonRank a.2 < seasonRank b.2))
        ((seasonalKeys rawData).insertionSort seasonalKeyLe) := by
      refine List.Pairwise.imp_of_mem ?_ (List.Pairwise.and h1 h2)
      intro a b ha hb hab
      obtain ⟨hle, hne⟩ := hab
      rcases hle with hlt | ⟨hy, hr⟩
      · exact Or.inl hlt
      · rcases lt_or_eq_of_le hr with hlt | heq
        · exact Or.inr ⟨hy, hlt⟩
        · exact absurd (Prod.ext hy (seasonRank_inj (hseason a ha) (hseason b hb) heq))
            hne
    rw [calculateSeasonalAvg, List.pairwise_map]
    exact h3

/-- Witness for C3: a December observation is represented at Winter of the
same calendar year. -/
theorem calculateSeasonalAvg_spec_witness :
    (calculateSeasonalAvg [⟨⟨2020, 12, 15⟩, "TMIN", -50⟩]).map
        (fun e => (e.Year, e.Season)) = [(2020, "Winter")] ∧
    ∃ e ∈ calculateSeasonalAvg [⟨⟨2020, 12, 15⟩, "TMIN", -50⟩],
      e.Year = (⟨⟨2020, 12, 15⟩, "TMIN", -50⟩ : RawStationData).Date.year ∧
      e.Season = seasonOf (⟨⟨2020, 12, 15⟩, "TMIN", -50⟩ : RawStationData).Date.month :=
  ⟨by decide,
   calculateSeasonalAvg_spec.2.2.1 [⟨⟨2020, 12, 15⟩, "TMIN", -50⟩]
     ⟨⟨2020, 12, 15⟩, "TMIN", -50⟩ (by decide)⟩
